import Mathlib

/-!
Shallow embedding of the `virby` VM runner (Python package
`pkgs/vm-runner/src/virby_vm_runner`) and proofs about it.

Each definition is translated from the named Python source file.  Time
values (`time.time()` results) are modelled as rationals; machine state
that the Python code mutates is passed explicitly.
-/

set_option maxHeartbeats 1000000
set_option maxRecDepth 40000

namespace Virby

/-! ## Circuit breaker (`circuit_breaker.py`)

`CircuitState` and `CircuitBreaker` mirror the Python classes.  The
`call` coroutine takes the current clock reading `now` and the outcome
`ok` of the wrapped function (`true` = the awaited call returns,
`false` = it raises), and yields the observable result of the call
together with the updated breaker.
-/

inductive CircuitState
  | closed
  | open_
  | half_open
  deriving DecidableEq, Repr

structure CircuitBreaker where
  failure_threshold : Nat
  timeout : ℚ
  failure_count : Nat
  last_failure_time : Option ℚ
  state : CircuitState
  deriving DecidableEq, Repr

/-- `CircuitBreaker.__init__`: counters start at zero, no failure time,
state closed. -/
def CircuitBreaker.init (failure_threshold : Nat) (timeout : ℚ) : CircuitBreaker :=
  { failure_threshold := failure_threshold
    timeout := timeout
    failure_count := 0
    last_failure_time := none
    state := .closed }

/-- `CircuitBreaker._on_success`. -/
def CircuitBreaker.on_success (cb : CircuitBreaker) : CircuitBreaker :=
  { cb with failure_count := 0, state := .closed }

/-- `CircuitBreaker._on_failure`, called at clock time `now`. -/
def CircuitBreaker.on_failure (cb : CircuitBreaker) (now : ℚ) : CircuitBreaker :=
  let fc := cb.failure_count + 1
  { cb with
    failure_count := fc
    last_failure_time := some now
    state := if cb.failure_threshold ≤ fc then .open_ else cb.state }

/-- Observable outcome of one `CircuitBreaker.call`:
`succeeded`/`failed` mean the wrapped function was invoked (and
returned resp. raised), `rejected` means `VMRuntimeError("Circuit
breaker is OPEN")` was raised without invoking the function, and
`crashed` models the `TypeError` Python would raise when subtracting
`last_failure_time = None` from `time.time()` on the open branch. -/
inductive CallResult
  | succeeded
  | failed
  | rejected
  | crashed
  deriving DecidableEq, Repr

/-- `CircuitBreaker.call` at clock time `now`; `ok` tells whether the
wrapped `func` returns (`true`) or raises (`false`). -/
def CircuitBreaker.call (cb : CircuitBreaker) (now : ℚ) (ok : Bool) :
    CallResult × CircuitBreaker :=
  match cb.state with
  | .open_ =>
    match cb.last_failure_time with
    | none => (.crashed, cb)
    | some t =>
      if cb.timeout < now - t then
        let cb1 : CircuitBreaker := { cb with state := .half_open }
        if ok then (.succeeded, cb1.on_success) else (.failed, cb1.on_failure now)
      else
        (.rejected, cb)
  | _ =>
    if ok then (.succeeded, cb.on_success) else (.failed, cb.on_failure now)

/-- `CircuitBreaker.reset`. -/
def CircuitBreaker.reset (cb : CircuitBreaker) : CircuitBreaker :=
  { cb with failure_count := 0, last_failure_time := none, state := .closed }

/-- External events driving one breaker: a guarded call (with its clock
reading and the wrapped function's outcome) or a manual reset. -/
inductive BreakerEvent
  | callEv (now : ℚ) (ok : Bool)
  | resetEv
  deriving DecidableEq, Repr

/-- State reached after one event. -/
def CircuitBreaker.step (cb : CircuitBreaker) : BreakerEvent → CircuitBreaker
  | .callEv now ok => (cb.call now ok).2
  | .resetEv => cb.reset

/-- State reached from `cb` after a list of events. -/
def CircuitBreaker.run (cb : CircuitBreaker) : List BreakerEvent → CircuitBreaker
  | [] => cb
  | e :: es => (cb.step e).run es

/-- Breakers reachable from a freshly-constructed breaker. -/
def ReachableBreaker (th : Nat) (tmo : ℚ) (cb : CircuitBreaker) : Prop :=
  ∃ evs : List BreakerEvent, (CircuitBreaker.init th tmo).run evs = cb

namespace CircuitBreaker

/-- The invariant maintained by every breaker operation: the
construction parameters are untouched, and the open state always has a
recorded failure time and a failure count at the threshold. -/
def Inv (th : Nat) (tmo : ℚ) (cb : CircuitBreaker) : Prop :=
  cb.failure_threshold = th ∧ cb.timeout = tmo ∧
    (cb.state = .open_ → cb.last_failure_time ≠ none ∧ th ≤ cb.failure_count)

theorem inv_step (th : Nat) (tmo : ℚ) (cb : CircuitBreaker) (e : BreakerEvent)
    (h : Inv th tmo cb) : Inv th tmo (cb.step e) := by
  obtain ⟨hth, htmo, hopen⟩ := h
  cases e with
  | resetEv =>
    refine ⟨hth, htmo, ?_⟩
    intro hst
    simp [step, reset] at hst
  | callEv now ok =>
    rcases hso : cb.state with _ | _ | _
    case open_ =>
      obtain ⟨hlft, hfc⟩ := hopen hso
      rcases hl : cb.last_failure_time with _ | t
      · exact absurd hl hlft
      by_cases hgt : tmo < now - t
      · cases ok with
        | true =>
          have hstep : cb.step (.callEv now true) =
              { cb with failure_count := 0, state := .closed } := by
            simp [step, call, hso, hl, htmo, hgt, on_success]
          rw [hstep]
          exact ⟨by simp [hth], by simp [htmo], fun hst => absurd hst (by simp)⟩
        | false =>
          have hle : cb.failure_threshold ≤ cb.failure_count + 1 := by omega
          have hstep : cb.step (.callEv now false) =
              { cb with failure_count := cb.failure_count + 1,
                        last_failure_time := some now, state := .open_ } := by
            simp [step, call, hso, hl, htmo, hgt, on_failure, hle]
          rw [hstep]
          exact ⟨by simp [hth], by simp [htmo],
            fun _ => ⟨by simp, by simp; omega⟩⟩
      · have hstep : cb.step (.callEv now ok) = cb := by
          cases ok <;> simp [step, call, hso, hl, htmo, hgt]
        rw [hstep]
        exact ⟨hth, htmo, fun _ => ⟨hlft, hfc⟩⟩
    all_goals
      cases ok with
      | true =>
        have hstep : cb.step (.callEv now true) =
            { cb with failure_count := 0, state := .closed } := by
          simp [step, call, hso, on_success]
        rw [hstep]
        exact ⟨by simp [hth], by simp [htmo], fun hst => absurd hst (by simp)⟩
      | false =>
        have hstep : cb.step (.callEv now false) =
            { cb with failure_count := cb.failure_count + 1,
                      last_failure_time := some now,
                      state := if cb.failure_threshold ≤ cb.failure_count + 1
                               then .open_ else cb.state } := by
          simp [step, call, hso, on_failure]
        rw [hstep]
        refine ⟨by simp [hth], by simp [htmo], ?_⟩
        intro hst
        refine ⟨by simp, ?_⟩
        simp only at hst ⊢
        by_cases hle : cb.failure_threshold ≤ cb.failure_count + 1
        · omega
        · rw [if_neg hle, hso] at hst
          exact absurd hst (by simp)

theorem inv_run (th : Nat) (tmo : ℚ) (cb : CircuitBreaker)
    (evs : List BreakerEvent) (h : Inv th tmo cb) : Inv th tmo (cb.run evs) := by
  induction evs generalizing cb with
  | nil => exact h
  | cons e es ih => exact ih _ (inv_step th tmo cb e h)

/-- Structural invariant of reachable breakers. -/
theorem reachable_invariant (th : Nat) (tmo : ℚ) (cb : CircuitBreaker)
    (h : ReachableBreaker th tmo cb) : Inv th tmo cb := by
  obtain ⟨evs, hrun⟩ := h
  have hinit : Inv th tmo (CircuitBreaker.init th tmo) := by
    refine ⟨rfl, rfl, ?_⟩
    intro hst
    simp [init] at hst
  simpa [hrun] using inv_run th tmo _ evs hinit

end CircuitBreaker

/-- A concrete reachable breaker used to instantiate the breaker
theorems: threshold 2, timeout 5, driven into the open state by two
failed calls at times 0 and 1. -/
def sampleOpenBreaker : CircuitBreaker :=
  (CircuitBreaker.init 2 5).run [.callEv 0 false, .callEv 1 false]

/-- C1: the circuit breaker implements the three-state machine: it
starts closed with zero failures; a failed call increments
`failure_count` and moves the breaker to open once the threshold is
reached; while open, a call within `timeout` of `last_failure_time` is
rejected (a `VMRuntimeError` is raised without invoking the wrapped
function, the breaker unchanged); once more than `timeout` has elapsed
the call is let through as a half-open trial whose success returns the
breaker to closed with `failure_count = 0` and whose failure returns
it to open. -/
theorem circuit_breaker_three_state_machine
    (th : Nat) (tmo : ℚ) (cb : CircuitBreaker)
    (hr : ReachableBreaker th tmo cb) (now t : ℚ) (ok : Bool) :
    ((CircuitBreaker.init th tmo).state = .closed
      ∧ (CircuitBreaker.init th tmo).failure_count = 0)
    ∧ (cb.state ≠ .open_ →
        (cb.call now false).1 = .failed
        ∧ (cb.call now false).2.failure_count = cb.failure_count + 1
        ∧ (th ≤ cb.failure_count + 1 → (cb.call now false).2.state = .open_))
    ∧ (cb.state = .open_ → cb.last_failure_time = some t → now - t ≤ tmo →
        cb.call now ok = (.rejected, cb))
    ∧ (cb.state = .open_ → cb.last_failure_time = some t → tmo < now - t →
        ((cb.call now true).1 = .succeeded
          ∧ (cb.call now true).2.state = .closed
          ∧ (cb.call now true).2.failure_count = 0)
        ∧ ((cb.call now false).1 = .failed
          ∧ (cb.call now false).2.state = .open_)) := by
  obtain ⟨hth, htmo, hopen⟩ := CircuitBreaker.reachable_invariant th tmo cb hr
  refine ⟨⟨rfl, rfl⟩, ?_, ?_, ?_⟩
  · intro hne
    rcases hso : cb.state with _ | _ | _
    · refine ⟨by simp [CircuitBreaker.call, hso, CircuitBreaker.on_failure],
        by simp [CircuitBreaker.call, hso, CircuitBreaker.on_failure], ?_⟩
      intro hle
      simp [CircuitBreaker.call, hso, CircuitBreaker.on_failure, hth, hle]
    · exact absurd hso hne
    · refine ⟨by simp [CircuitBreaker.call, hso, CircuitBreaker.on_failure],
        by simp [CircuitBreaker.call, hso, CircuitBreaker.on_failure], ?_⟩
      intro hle
      simp [CircuitBreaker.call, hso, CircuitBreaker.on_failure, hth, hle]
  · intro hso hl hle
    have hgt : ¬ cb.timeout < now - t := by rw [htmo]; exact not_lt.mpr hle
    cases ok <;> simp [CircuitBreaker.call, hso, hl, hgt]
  · intro hso hl hgt
    obtain ⟨-, hfc⟩ := hopen hso
    have hgt' : cb.timeout < now - t := htmo ▸ hgt
    have hle : cb.failure_threshold ≤ cb.failure_count + 1 := by omega
    refine ⟨⟨?_, ?_, ?_⟩, ?_, ?_⟩ <;>
      simp [CircuitBreaker.call, hso, hl, hgt', CircuitBreaker.on_success,
        CircuitBreaker.on_failure, hle]

/-- Witness for C1: the sample open breaker rejects a call made
within its timeout of the last failure, leaving the breaker
untouched. -/
theorem circuit_breaker_three_state_machine_witness :
    sampleOpenBreaker.call 2 true = (.rejected, sampleOpenBreaker) :=
  (circuit_breaker_three_state_machine 2 5 sampleOpenBreaker
      ⟨[.callEv 0 false, .callEv 1 false], rfl⟩ 2 1 true).2.2.1
    (by decide) (by decide) (by norm_num)

/-- C9: in every breaker state reachable from the initial state by any
sequence of calls and resets, being open implies `last_failure_time`
is set, so the elapsed-time subtraction on the open branch of `call`
is well-defined (no call ever takes the `crashed` branch that models
Python's `TypeError` on `time.time() - None`). -/
theorem open_state_has_last_failure_time
    (th : Nat) (tmo : ℚ) (cb : CircuitBreaker)
    (hr : ReachableBreaker th tmo cb) (hso : cb.state = .open_) :
    cb.last_failure_time ≠ none ∧ ∀ now ok, (cb.call now ok).1 ≠ .crashed := by
  obtain ⟨hth, htmo, hopen⟩ := CircuitBreaker.reachable_invariant th tmo cb hr
  obtain ⟨hlft, hfc⟩ := hopen hso
  refine ⟨hlft, ?_⟩
  intro now ok
  rcases hl : cb.last_failure_time with _ | t
  · exact absurd hl hlft
  by_cases hgt : cb.timeout < now - t <;> cases ok <;>
    simp [CircuitBreaker.call, hso, hl, hgt]

/-- Witness for C9: the sample open breaker has its failure time set
and never crashes. -/
theorem open_state_has_last_failure_time_witness :
    sampleOpenBreaker.last_failure_time ≠ none
    ∧ ∀ now ok, (sampleOpenBreaker.call now ok).1 ≠ .crashed :=
  open_state_has_last_failure_time 2 5 sampleOpenBreaker
    ⟨[.callEv 0 false, .callEv 1 false], rfl⟩ (by decide)

/-! ## MAC normalisation (`ip_discovery.py`)

`IPDiscovery._normalize_mac` is
`LEADING_ZERO_REGEXP.sub(r"\1", mac.lower())` with
`LEADING_ZERO_REGEXP = re.compile(r"0([A-Fa-f0-9](:|$))")`.

`pyLower` models `str.lower` on the ASCII range (the only characters a
MAC can contain).  `trimZeros` models the left-to-right,
non-overlapping substitution performed by `re.sub`: at each position a
match is `0` followed by one hex digit followed by `:` or the end of
the string, and is replaced by capture group 1 (the hex digit and the
separator); scanning resumes after the match.
-/

/-- `str.lower` on ASCII: map `A`-`Z` (codes 65-90) to `a`-`z`. -/
def pyLower (c : Char) : Char :=
  if 65 ≤ c.toNat ∧ c.toNat ≤ 90 then Char.ofNat (c.toNat + 32) else c

/-- The character class `[A-Fa-f0-9]` of `LEADING_ZERO_REGEXP`. -/
def isHexDigit (c : Char) : Bool :=
  (48 ≤ c.toNat && c.toNat ≤ 57) || (97 ≤ c.toNat && c.toNat ≤ 102)
    || (65 ≤ c.toNat && c.toNat ≤ 70)

/-- One left-to-right pass of `LEADING_ZERO_REGEXP.sub(r"\1", ·)`.
The first two arms are the two ways the pattern can match (separator
`:` resp. end of string); when the middle character is not a hex digit
there is no match at this position and — since a non-hex character can
never start a match itself — the scan resumes two characters later,
which the first arm's else-branch inlines. -/
def trimZeros : List Char → List Char
  | '0' :: d :: ':' :: rest =>
    if isHexDigit d then d :: ':' :: trimZeros rest
    else '0' :: d :: ':' :: trimZeros rest
  | ['0', d] => if isHexDigit d then [d] else ['0', d]
  | c :: rest => c :: trimZeros rest
  | [] => []

/-- `IPDiscovery._normalize_mac`. -/
def normalize_mac (mac : String) : String :=
  ⟨trimZeros (mac.data.map pyLower)⟩

/-- What the substitution does to a single octet: drop a leading `0`
from a two-hex-digit octet. -/
def dropLead : List Char → List Char
  | ['0', d] => if isHexDigit d then [d] else ['0', d]
  | o => o

/-- Join octets with `:` separators. -/
def macJoin : List (List Char) → List Char
  | [] => []
  | [o] => o
  | o :: os => o ++ ':' :: macJoin os

/-- A well-formed MAC-like octet list: every octet is one or two hex
digits.  (A raw MAC has exactly two digits per octet; the one-digit
form arises after a leading zero has been stripped.) -/
def WfOctets (os : List (List Char)) : Prop :=
  ∀ o ∈ os, (o.length = 1 ∨ o.length = 2) ∧ ∀ c ∈ o, isHexDigit c = true

instance (os : List (List Char)) : Decidable (WfOctets os) := by
  unfold WfOctets
  infer_instance

theorem char_toNat_ofNat (n : Nat) (h : n < 55296) : (Char.ofNat n).toNat = n := by
  have hv : Nat.isValidChar n := Or.inl h
  have h32 : n < 2 ^ 32 := by omega
  simp [Char.ofNat, hv, Char.ofNatAux, Char.toNat, UInt32.toNat, UInt32.ofNatCore,
    BitVec.ofNat, Fin.ofNat', Nat.mod_eq_of_lt h32]

theorem char_eq_iff_toNat (a b : Char) : a = b ↔ a.toNat = b.toNat := by
  constructor
  · intro h; rw [h]
  · intro h
    rw [← Char.ofNat_toNat a, h, Char.ofNat_toNat]

theorem pyLower_toNat (c : Char) :
    (pyLower c).toNat =
      if 65 ≤ c.toNat ∧ c.toNat ≤ 90 then c.toNat + 32 else c.toNat := by
  unfold pyLower
  split
  · next h => exact char_toNat_ofNat _ (by omega)
  · rfl

theorem pyLower_pyLower (c : Char) : pyLower (pyLower c) = pyLower c := by
  rw [char_eq_iff_toNat]
  simp only [pyLower_toNat]
  split_ifs <;> omega

theorem isHexDigit_iff (c : Char) :
    isHexDigit c = true ↔
      (48 ≤ c.toNat ∧ c.toNat ≤ 57) ∨ (97 ≤ c.toNat ∧ c.toNat ≤ 102)
        ∨ (65 ≤ c.toNat ∧ c.toNat ≤ 70) := by
  simp only [isHexDigit, Bool.or_eq_true, Bool.and_eq_true, decide_eq_true_eq]
  tauto

theorem isHexDigit_pyLower (c : Char) : isHexDigit (pyLower c) = isHexDigit c := by
  rw [Bool.eq_iff_iff, isHexDigit_iff, isHexDigit_iff]
  simp only [pyLower_toNat]
  split_ifs <;> omega

theorem pyLower_eq_zero_iff (c : Char) : pyLower c = '0' ↔ c = '0' := by
  rw [char_eq_iff_toNat, char_eq_iff_toNat]
  simp only [pyLower_toNat]
  have : ('0' : Char).toNat = 48 := by decide
  rw [this]
  split_ifs <;> omega

theorem hex_ne_colon {c : Char} (h : isHexDigit c = true) : c ≠ ':' := by
  rintro rfl
  exact absurd h (by decide)

theorem pyLower_colon : pyLower ':' = ':' := by decide

theorem trimZeros_cons_ne (c : Char) (l : List Char) (hc : c ≠ '0') :
    trimZeros (c :: l) = c :: trimZeros l := by
  rcases l with _ | ⟨d, _ | ⟨e, t⟩⟩ <;> simp [trimZeros, hc]

theorem trimZeros_zero_cons_colon (d : Char) (rest : List Char) :
    trimZeros ('0' :: d :: ':' :: rest) =
      if isHexDigit d then d :: ':' :: trimZeros rest
      else '0' :: d :: ':' :: trimZeros rest := by
  simp [trimZeros]

theorem trimZeros_two_zero (d : Char) :
    trimZeros ['0', d] = if isHexDigit d then [d] else ['0', d] := by
  simp [trimZeros]

theorem trimZeros_single (c : Char) : trimZeros [c] = [c] := by
  simp [trimZeros]

theorem trimZeros_zero_cons_ne (d e : Char) (t : List Char) (he : e ≠ ':') :
    trimZeros ('0' :: d :: e :: t) = '0' :: trimZeros (d :: e :: t) := by
  simp [trimZeros, he]

theorem dropLead_two (a b : Char) (ha : a ≠ '0') : dropLead [a, b] = [a, b] := by
  simp [dropLead, ha]

theorem dropLead_single (a : Char) : dropLead [a] = [a] := by
  by_cases ha : a = '0' <;> simp [dropLead, ha]

/-- A final octet (no separator after it) is rewritten to its
leading-zero-stripped form. -/
theorem trimZeros_octet_last (o : List Char) (hlen : o.length = 1 ∨ o.length = 2) :
    trimZeros o = dropLead o := by
  rcases o with _ | ⟨a, _ | ⟨b, _ | ⟨c, t⟩⟩⟩
  · simp at hlen
  · rw [trimZeros_single, dropLead_single]
  · by_cases ha : a = '0'
    · subst ha
      rw [trimZeros_two_zero]; rfl
    · rw [trimZeros_cons_ne a _ ha, trimZeros_single, dropLead_two a b ha]
  · simp at hlen

/-- An octet followed by a separator and more hex material is
rewritten to its leading-zero-stripped form, and scanning continues
after the separator. -/
theorem trimZeros_octet_prefix (o : List Char) (c2 : Char) (rest : List Char)
    (hlen : o.length = 1 ∨ o.length = 2)
    (hhex : ∀ c ∈ o, isHexDigit c = true) (hc2 : c2 ≠ ':') :
    trimZeros (o ++ ':' :: c2 :: rest) =
      dropLead o ++ ':' :: trimZeros (c2 :: rest) := by
  rcases o with _ | ⟨a, _ | ⟨b, _ | ⟨c, t⟩⟩⟩
  · simp at hlen
  · by_cases ha : a = '0'
    · subst ha
      show trimZeros ('0' :: ':' :: c2 :: rest) = _
      rw [trimZeros_zero_cons_ne ':' c2 rest hc2,
        trimZeros_cons_ne ':' _ (by decide), dropLead_single]
      rfl
    · show trimZeros (a :: ':' :: c2 :: rest) = _
      rw [trimZeros_cons_ne a _ ha, trimZeros_cons_ne ':' _ (by decide),
        dropLead_single]
      rfl
  · have hbhex : isHexDigit b = true := hhex b (by simp)
    by_cases ha : a = '0'
    · subst ha
      show trimZeros ('0' :: b :: ':' :: (c2 :: rest)) = _
      rw [trimZeros_zero_cons_colon, if_pos hbhex]
      simp [dropLead, hbhex]
    · show trimZeros (a :: b :: ':' :: (c2 :: rest)) = _
      rw [trimZeros_cons_ne a _ ha]
      by_cases hb : b = '0'
      · subst hb
        rw [trimZeros_zero_cons_ne ':' c2 rest hc2,
          trimZeros_cons_ne ':' _ (by decide), dropLead_two a '0' ha]
        rfl
      · rw [trimZeros_cons_ne b _ hb, trimZeros_cons_ne ':' _ (by decide),
          dropLead_two a b ha]
        rfl
  · simp at hlen

theorem macJoin_cons_cons (a b : List Char) (l : List (List Char)) :
    macJoin (a :: b :: l) = a ++ ':' :: macJoin (b :: l) := rfl

/-- The regex substitution acts octet-wise on a well-formed MAC-like
string: it strips the leading zero of each octet. -/
theorem trimZeros_macJoin (os : List (List Char)) (h : WfOctets os) :
    trimZeros (macJoin os) = macJoin (os.map dropLead) := by
  induction os with
  | nil => rfl
  | cons o os ih =>
    obtain ⟨hlen, hhex⟩ := h o (by simp)
    have hos : WfOctets os := fun o' ho' => h o' (by simp [ho'])
    cases os with
    | nil => exact trimZeros_octet_last o hlen
    | cons o2 os2 =>
      obtain ⟨hlen2, hhex2⟩ := h o2 (by simp)
      rcases o2 with _ | ⟨c2, o2t⟩
      · simp at hlen2
      have hc2 : c2 ≠ ':' := hex_ne_colon (hhex2 c2 (by simp))
      obtain ⟨r, hr⟩ : ∃ r, macJoin ((c2 :: o2t) :: os2) = c2 :: r := by
        cases os2 <;> exact ⟨_, rfl⟩
      rw [macJoin_cons_cons, hr, trimZeros_octet_prefix o c2 r hlen hhex hc2,
        ← hr, ih hos]
      simp only [List.map_cons, macJoin_cons_cons]

theorem macJoin_map_pyLower (os : List (List Char)) :
    (macJoin os).map pyLower = macJoin (os.map (List.map pyLower)) := by
  induction os with
  | nil => rfl
  | cons o os ih =>
    cases os with
    | nil => rfl
    | cons o2 os2 =>
      simp only [List.map_cons, List.map_append, macJoin_cons_cons,
        pyLower_colon, ih]

theorem pyLower_zero : pyLower '0' = '0' := by decide

theorem dropLead_long (a b c : Char) (t : List Char) :
    dropLead (a :: b :: c :: t) = a :: b :: c :: t := by
  by_cases ha : a = '0' <;> simp [dropLead, ha]

theorem dropLead_map_pyLower (l : List Char) :
    (dropLead l).map pyLower = dropLead (l.map pyLower) := by
  rcases l with _ | ⟨a, _ | ⟨b, _ | ⟨c, t⟩⟩⟩
  · rfl
  · rw [dropLead_single, List.map_cons, List.map_nil, dropLead_single]
  · by_cases ha : a = '0'
    · subst ha
      by_cases hb : isHexDigit b = true
      · simp [dropLead, hb, pyLower_zero, isHexDigit_pyLower]
      · simp [dropLead, hb, pyLower_zero, isHexDigit_pyLower]
    · have ha' : pyLower a ≠ '0' := fun hx => ha ((pyLower_eq_zero_iff a).mp hx)
      rw [dropLead_two a b ha, List.map_cons, List.map_cons, List.map_nil,
        dropLead_two _ _ ha']
  · rw [dropLead_long]
    simp only [List.map_cons]
    rw [dropLead_long]

theorem dropLead_dropLead (l : List Char) : dropLead (dropLead l) = dropLead l := by
  rcases l with _ | ⟨a, _ | ⟨b, _ | ⟨c, t⟩⟩⟩
  · rfl
  · rw [dropLead_single, dropLead_single]
  · by_cases ha : a = '0'
    · subst ha
      by_cases hb : isHexDigit b = true
      · simp [dropLead, hb]
      · simp [dropLead, hb]
    · rw [dropLead_two a b ha, dropLead_two a b ha]
  · rw [dropLead_long, dropLead_long]

theorem map_pyLower_idem (l : List Char) :
    (l.map pyLower).map pyLower = l.map pyLower := by
  rw [List.map_map]
  exact List.map_congr_left fun a _ => pyLower_pyLower a

theorem wf_map_pyLower (os : List (List Char)) (h : WfOctets os) :
    WfOctets (os.map (List.map pyLower)) := by
  intro o' ho'
  obtain ⟨o, ho, rfl⟩ := List.mem_map.mp ho'
  obtain ⟨hlen, hhex⟩ := h o ho
  refine ⟨by simpa using hlen, ?_⟩
  intro c hc
  obtain ⟨c0, hc0, rfl⟩ := List.mem_map.mp hc
  rw [isHexDigit_pyLower]
  exact hhex c0 hc0

theorem wf_dropLead (os : List (List Char)) (h : WfOctets os) :
    WfOctets (os.map dropLead) := by
  intro o' ho'
  obtain ⟨o, ho, rfl⟩ := List.mem_map.mp ho'
  obtain ⟨hlen, hhex⟩ := h o ho
  rcases o with _ | ⟨a, _ | ⟨b, _ | ⟨c, t⟩⟩⟩
  · simp at hlen
  · rw [dropLead_single]
    exact ⟨Or.inl rfl, hhex⟩
  · by_cases ha : a = '0'
    · subst ha
      by_cases hb : isHexDigit b = true
      · have hd : dropLead ['0', b] = [b] := by simp [dropLead, hb]
        rw [hd]
        refine ⟨Or.inl rfl, ?_⟩
        intro c hc
        simp at hc
        subst hc
        exact hb
      · have hd : dropLead ['0', b] = ['0', b] := by simp [dropLead, hb]
        rw [hd]
        exact ⟨Or.inr rfl, hhex⟩
    · rw [dropLead_two a b ha]
      exact ⟨Or.inr rfl, hhex⟩
  · simp at hlen

/-- `_normalize_mac` on a joined octet list: lower-case every octet,
then strip its leading zero. -/
theorem normalize_macJoin (os : List (List Char)) (h : WfOctets os) :
    normalize_mac ⟨macJoin os⟩ =
      ⟨macJoin ((os.map (List.map pyLower)).map dropLead)⟩ := by
  unfold normalize_mac
  rw [show (String.mk (macJoin os)).data = macJoin os from rfl]
  rw [macJoin_map_pyLower, trimZeros_macJoin _ (wf_map_pyLower os h)]

/-- Two octets differ only by letter case or by a leading zero. -/
def OctetEquiv (o1 o2 : List Char) : Prop :=
  o1.map pyLower = o2.map pyLower
  ∨ (∃ d, o1.map pyLower = ['0', d] ∧ o2.map pyLower = [d])
  ∨ (∃ d, o1.map pyLower = [d] ∧ o2.map pyLower = ['0', d])

theorem dropLead_octetEquiv (o1 o2 : List Char) (he : OctetEquiv o1 o2)
    (h2 : ∀ c ∈ o2, isHexDigit c = true) :
    dropLead (o1.map pyLower) = dropLead (o2.map pyLower) := by
  rcases he with he | ⟨d, h1, h2'⟩ | ⟨d, h1, h2'⟩
  · rw [he]
  · have hd : isHexDigit d = true := by
      have : d ∈ o2.map pyLower := by rw [h2']; simp
      obtain ⟨c0, hc0, rfl⟩ := List.mem_map.mp this
      rw [isHexDigit_pyLower]
      exact h2 c0 hc0
    rw [h1, h2', dropLead_single]
    simp [dropLead, hd]
  · have hd : isHexDigit d = true := by
      have : '0' ∈ o2.map pyLower ∧ d ∈ o2.map pyLower := by rw [h2']; simp
      obtain ⟨c0, hc0, rfl⟩ := List.mem_map.mp this.2
      rw [isHexDigit_pyLower]
      exact h2 c0 hc0
    rw [h1, h2', dropLead_single]
    simp [dropLead, hd]

theorem map_dropLead_octetEquiv (os1 os2 : List (List Char))
    (h2 : WfOctets os2) (hf : List.Forall₂ OctetEquiv os1 os2) :
    (os1.map (List.map pyLower)).map dropLead
      = (os2.map (List.map pyLower)).map dropLead := by
  induction hf with
  | nil => rfl
  | @cons a b l1 l2 hpair hrest ih =>
    have hwb : WfOctets l2 := fun o ho => h2 o (by simp [ho])
    simp only [List.map_cons]
    rw [dropLead_octetEquiv a b hpair (h2 b (by simp)).2, ih hwb]

/-- C8: MAC normalisation is idempotent on MAC-like strings (octets of
one or two hex digits joined by `:`), and two MACs that differ only in
letter case or in a leading zero within an octet normalise to the same
string. -/
theorem mac_normalization_idempotent :
    (∀ os : List (List Char), WfOctets os →
        normalize_mac (normalize_mac ⟨macJoin os⟩) = normalize_mac ⟨macJoin os⟩)
    ∧ (∀ os1 os2 : List (List Char), WfOctets os1 → WfOctets os2 →
        List.Forall₂ OctetEquiv os1 os2 →
        normalize_mac ⟨macJoin os1⟩ = normalize_mac ⟨macJoin os2⟩) := by
  constructor
  · intro os h
    have h1 : WfOctets (os.map (List.map pyLower)) := wf_map_pyLower os h
    have h2 : WfOctets ((os.map (List.map pyLower)).map dropLead) :=
      wf_dropLead _ h1
    rw [normalize_macJoin os h, normalize_macJoin _ h2]
    congr 1
    have key : ((os.map (List.map pyLower)).map dropLead).map (List.map pyLower)
        = (os.map (List.map pyLower)).map dropLead := by
      rw [List.map_map]
      refine List.map_congr_left ?_
      intro x hx
      obtain ⟨o, ho, rfl⟩ := List.mem_map.mp hx
      show List.map pyLower (dropLead (List.map pyLower o))
        = dropLead (List.map pyLower o)
      rw [dropLead_map_pyLower, map_pyLower_idem]
    rw [key, List.map_map]
    congr 1
    refine List.map_congr_left ?_
    intro o _
    exact dropLead_dropLead _
  · intro os1 os2 h1 h2 hf
    rw [normalize_macJoin os1 h1, normalize_macJoin os2 h2]
    congr 1
    rw [map_dropLead_octetEquiv os1 os2 h2 hf]

/-- Witness for C8, at the MACs `02:0A` and `02:a` (same address up to
case and a leading zero). -/
theorem mac_normalization_idempotent_witness :
    normalize_mac (normalize_mac ⟨macJoin [['0', '2'], ['0', 'A']]⟩)
        = normalize_mac ⟨macJoin [['0', '2'], ['0', 'A']]⟩
    ∧ normalize_mac ⟨macJoin [['0', '2'], ['0', 'A']]⟩
        = normalize_mac ⟨macJoin [['0', '2'], ['a']]⟩ :=
  ⟨mac_normalization_idempotent.1 [['0', '2'], ['0', 'A']] (by decide),
   mac_normalization_idempotent.2 [['0', '2'], ['0', 'A']] [['0', '2'], ['a']]
     (by decide) (by decide)
     (List.Forall₂.cons (Or.inl (by decide))
       (List.Forall₂.cons (Or.inr (Or.inl ⟨'a', by decide, by decide⟩))
         List.Forall₂.nil))⟩

/-! ## Constants (`constants.py`) -/

def SSH_USER_PRIVATE_KEY_FILE_NAME : String := "ssh_user_ed25519_key"

def SSH_KNOWN_HOSTS_FILE_NAME : String := "ssh_known_hosts"

def SSHD_KEYS_SHARED_DIR_NAME : String := "vm_sshd_keys"

def EFI_VARIABLE_STORE_FILE_NAME : String := "efistore.nvram"

def DIFF_DISK_FILE_NAME : String := "diff.img"

def SERIAL_LOG_FILE_NAME : String := "serial.log"

/-! ## SSH probe (`ssh.py`)

`SSHConnectivityTester.test_connectivity` is modelled as a function of
whether the working-directory private key file exists and of the
outcome of the (at most one) spawned `ssh` child: exit with a code,
timeout (child killed), or a failure to spawn at all.  The awaited
sleeps are irrelevant to the result and are not modelled.
-/

/-- The fixed part of the `ssh` command template built in
`SSHConnectivityTester.__init__`. -/
def sshBaseCommand (workingDir : String) : List String :=
  ["ssh",
   "-o", "BatchMode=yes",
   "-o", "LogLevel=ERROR",
   "-o", "PasswordAuthentication=no",
   "-o", "StrictHostKeyChecking=accept-new",
   "-o", "UserKnownHostsFile=" ++ workingDir ++ "/" ++ SSH_KNOWN_HOSTS_FILE_NAME,
   "-p", "22",
   "-i", workingDir ++ "/" ++ SSH_USER_PRIVATE_KEY_FILE_NAME]

/-- The full command spawned by `test_connectivity`. -/
def sshProbeCommand (workingDir username ip : String) (timeout : Nat) : List String :=
  sshBaseCommand workingDir
    ++ ["-o", "ConnectTimeout=" ++ toString timeout, username ++ "@" ++ ip, "true"]

inductive SpawnOutcome
  | exited (code : Int)
  | timedOut
  | spawnFailed
  deriving DecidableEq, Repr

structure SSHProbeResult where
  success : Bool
  spawned : Bool
  deriving DecidableEq, Repr

/-- `SSHConnectivityTester.test_connectivity`: the key-file existence
check happens before any subprocess is created. -/
def test_connectivity (keyExists : Bool) (o : SpawnOutcome) : SSHProbeResult :=
  if !keyExists then ⟨false, false⟩
  else
    match o with
    | .exited c => ⟨decide (c = 0), true⟩
    | .timedOut => ⟨false, true⟩
    | .spawnFailed => ⟨false, false⟩

/-- C10: when the working-directory private key file does not exist,
the SSH probe returns failure immediately and no `ssh` child process
is spawned, whatever would have happened to such a child. -/
theorem ssh_probe_missing_key_no_spawn (o : SpawnOutcome) :
    (test_connectivity false o).success = false
    ∧ (test_connectivity false o).spawned = false := by
  exact ⟨rfl, rfl⟩

/-! ## Orphan cleanup (`vm_process.py`, `cleanup_orphaned_vfkit_processes`)

The PID file is seen through `PidFileView`: missing
(`FileNotFoundError`), lock not acquirable (`BlockingIOError`), or
readable content.  `alive pid` is the result of the null-signal probe
`os.kill(pid, 0)` (`false` = `ProcessLookupError`), and
`aliveAfterTerm pid` the result of the second probe after `SIGTERM`
and the 0.5 s sleep.  `pyParseInt` models `int(str)` on stripped
ASCII input (sign, digits, single underscores between digits;
non-ASCII decimal digits accepted by Python are not modelled).
-/

/-- Digit run of `int()`, allowing single underscores between digits. -/
def pyDigits : List Char → Nat → Option Nat
  | [], acc => some acc
  | '_' :: d :: rest, acc =>
    if d.isDigit then pyDigits rest (acc * 10 + (d.toNat - 48)) else none
  | d :: rest, acc =>
    if d.isDigit then pyDigits rest (acc * 10 + (d.toNat - 48)) else none

def pyParseNat (cs : List Char) : Option Nat :=
  match cs with
  | [] => none
  | d :: rest => if d.isDigit then pyDigits rest (d.toNat - 48) else none

/-- `int(s)` for an already-stripped string `s`. -/
def pyParseInt (cs : List Char) : Option Int :=
  match cs with
  | '+' :: rest => (pyParseNat rest).map Int.ofNat
  | '-' :: rest => (pyParseNat rest).map (fun n => -(n : Int))
  | rest => (pyParseNat rest).map Int.ofNat

/-- `str.strip()` (whitespace from both ends). -/
def pyStripList (l : List Char) : List Char :=
  ((l.dropWhile Char.isWhitespace).reverse.dropWhile Char.isWhitespace).reverse

def pyStrip (s : String) : String :=
  ⟨pyStripList s.data⟩

inductive SigKind
  | sigterm
  | sigkill
  deriving DecidableEq, Repr

structure CleanupOutcome where
  removed : Bool
  signals : List (Int × SigKind)
  deriving DecidableEq, Repr

inductive PidFileView
  | missing
  | lockBlocked
  | content (s : String)
  deriving DecidableEq, Repr

/-- `cleanup_orphaned_vfkit_processes`: which signals are sent and
whether the PID file is removed. -/
def cleanup_orphaned_vfkit_processes (view : PidFileView)
    (alive aliveAfterTerm : Int → Bool) : CleanupOutcome :=
  match view with
  | .missing => ⟨false, []⟩
  | .lockBlocked => ⟨false, []⟩
  | .content s =>
    let pid_str := pyStrip s
    if pid_str.data.isEmpty then ⟨true, []⟩
    else
      match pyParseInt pid_str.data with
      | none => ⟨true, []⟩
      | some pid =>
        if pid ≤ 0 then ⟨true, []⟩
        else if alive pid then
          if aliveAfterTerm pid then ⟨true, [(pid, .sigterm), (pid, .sigkill)]⟩
          else ⟨true, [(pid, .sigterm)]⟩
        else ⟨true, []⟩

/-- C7: orphan cleanup on process entry: a failed non-blocking lock
(or a missing file) leaves everything untouched; malformed or empty
PID files are removed without signalling; a positive PID whose process
no longer exists has its PID file removed and receives neither
`SIGTERM` nor `SIGKILL`. -/
theorem orphan_cleanup_behaviour (alive alive2 : Int → Bool) (s : String)
    (pid : Int) :
    cleanup_orphaned_vfkit_processes .missing alive alive2 = ⟨false, []⟩
    ∧ cleanup_orphaned_vfkit_processes .lockBlocked alive alive2 = ⟨false, []⟩
    ∧ (pyParseInt (pyStrip s).data = none →
        cleanup_orphaned_vfkit_processes (.content s) alive alive2 = ⟨true, []⟩)
    ∧ (pyParseInt (pyStrip s).data = some pid → 0 < pid → alive pid = false →
        cleanup_orphaned_vfkit_processes (.content s) alive alive2
          = ⟨true, []⟩) := by
  refine ⟨rfl, rfl, ?_, ?_⟩
  · intro hparse
    unfold cleanup_orphaned_vfkit_processes
    by_cases he : (pyStrip s).data.isEmpty <;> simp [he, hparse]
  · intro hparse hpos halive
    unfold cleanup_orphaned_vfkit_processes
    have he : (pyStrip s).data.isEmpty = false := by
      rcases hd : (pyStrip s).data with _ | ⟨c, t⟩
      · rw [hd] at hparse
        simp [pyParseInt, pyParseNat] at hparse
      · simp
    simp only [he, Bool.false_eq_true, if_false, hparse]
    have : ¬ pid ≤ 0 := by omega
    simp [this, halive]

/-- Witness for C7: PID file containing `"4242"` while no process
4242 exists: the file is removed and no signal is sent. -/
theorem orphan_cleanup_behaviour_witness :
    cleanup_orphaned_vfkit_processes (.content "4242")
      (fun _ => false) (fun _ => false) = ⟨true, []⟩ :=
  (orphan_cleanup_behaviour (fun _ => false) (fun _ => false) "4242" 4242).2.2.2
    (by decide) (by decide) rfl

/-! ## IP discovery (`ip_discovery.py`)

`IPDiscovery.discover_ip` is modelled against a filesystem outcome:
the leases file is absent, a stat/read raises `OSError`/`IOError`, the
read succeeds with an mtime and a content string, or an unexpected
(non-OS) exception occurs — the `except Exception` branch of the
source.  `_parse_dhcp_leases` and the mtime-keyed entry cache are
translated in full; `str.splitlines` is modelled for the line endings
`\n`, `\r\n` and `\r`.
-/

/-- A parsed DHCP entry (class `DHCPEntry`). -/
structure DHCPEntry where
  name : Option String := none
  ip_address : Option String := none
  hw_address : Option String := none
  identifier : Option String := none
  lease : Option String := none
  deriving DecidableEq, Repr

/-- `str.splitlines` for `\n`, `\r\n` and `\r`. -/
def splitLinesAux : List Char → List Char → List (List Char)
  | [], acc => if acc.isEmpty then [] else [acc.reverse]
  | '\r' :: '\n' :: rest, acc => acc.reverse :: splitLinesAux rest []
  | '\n' :: rest, acc => acc.reverse :: splitLinesAux rest []
  | '\r' :: rest, acc => acc.reverse :: splitLinesAux rest []
  | c :: rest, acc => splitLinesAux rest (c :: acc)

def pySplitLines (s : String) : List (List Char) :=
  splitLinesAux s.data []

/-- `line.split("=", 1)` guarded by `"=" in line`. -/
def splitEq1 (l : List Char) : Option (List Char × List Char) :=
  if '=' ∈ l then some (l.takeWhile (· ≠ '='), (l.dropWhile (· ≠ '=')).tail)
  else none

/-- One `key = value` line applied to the current entry. -/
def applyKV (e : DHCPEntry) (key value : List Char) : DHCPEntry :=
  if key = "name".data then { e with name := some ⟨value⟩ }
  else if key = "ip_address".data then { e with ip_address := some ⟨value⟩ }
  else if key = "hw_address".data then
    if value.take 2 = "1,".data then
      { e with hw_address := some (normalize_mac ⟨value.drop 2⟩) }
    else
      { e with hw_address := some (normalize_mac ⟨value⟩) }
  else if key = "identifier".data then { e with identifier := some ⟨value⟩ }
  else if key = "lease".data then { e with lease := some ⟨value⟩ }
  else e

/-- The line loop of `_parse_dhcp_leases`. -/
def parseLines : List (List Char) → Option DHCPEntry → List DHCPEntry →
    List DHCPEntry
  | [], _, entries => entries
  | line :: rest, cur, entries =>
    let l := pyStripList line
    if l = ['{'] then parseLines rest (some {}) entries
    else if l = ['}'] then
      match cur with
      | some e => parseLines rest none (entries ++ [e])
      | none => parseLines rest none entries
    else
      match cur with
      | none => parseLines rest none entries
      | some e =>
        match splitEq1 l with
        | none => parseLines rest (some e) entries
        | some (k, v) =>
          parseLines rest (some (applyKV e (pyStripList k) (pyStripList v)))
            entries

/-- `IPDiscovery._parse_dhcp_leases`. -/
def parse_dhcp_leases (content : String) : List DHCPEntry :=
  parseLines (pySplitLines content) none []

/-- The lookup loop of `discover_ip`: the first entry whose
(normalised) hardware address equals the configured MAC yields its
`ip_address` field (which may itself be absent). -/
def lookupIp (entries : List DHCPEntry) (mac : String) : Option String :=
  match entries with
  | [] => none
  | e :: rest => if e.hw_address = some mac then e.ip_address else lookupIp rest mac

/-- Mutable state of an `IPDiscovery` object. -/
structure IPDiscoveryState where
  mac_address : String
  cached_entries : Option (List DHCPEntry)
  cached_mtime : Option ℚ
  deriving DecidableEq, Repr

/-- `IPDiscovery.__init__`. -/
def IPDiscoveryState.init (mac : String) : IPDiscoveryState :=
  ⟨normalize_mac mac, none, none⟩

/-- What the leases file looks like during one `discover_ip` call. -/
inductive FsOutcome
  | absent
  | readError (mtime : ℚ)
  | ok (mtime : ℚ) (content : String)
  | unexpected
  deriving DecidableEq, Repr

/-- Result of one `discover_ip` call: a returned optional IP, or a
raised `IPDiscoveryError`. -/
inductive DiscoverResult
  | ok (ip : Option String)
  | ipDiscoveryError
  deriving DecidableEq, Repr

/-- `IPDiscovery.discover_ip`. -/
def discover_ip (st : IPDiscoveryState) (fs : FsOutcome) :
    DiscoverResult × IPDiscoveryState :=
  match fs with
  | .absent => (.ok none, st)
  | .readError _ =>
    (.ok none, { st with cached_entries := none, cached_mtime := none })
  | .unexpected => (.ipDiscoveryError, st)
  | .ok mtime content =>
    match st.cached_entries, st.cached_mtime with
    | some es, some m =>
      if m = mtime then (.ok (lookupIp es st.mac_address), st)
      else
        let es' := parse_dhcp_leases content
        (.ok (lookupIp es' st.mac_address),
          { st with cached_entries := some es', cached_mtime := some mtime })
    | _, _ =>
      let es' := parse_dhcp_leases content
      (.ok (lookupIp es' st.mac_address),
        { st with cached_entries := some es', cached_mtime := some mtime })

/-- C6: DHCP lookup fails soft: an absent leases file yields `none`
with no exception and no cache change; a read error yields `none` and
invalidates the cache; an unexpected failure while reading or parsing
raises an `IPDiscoveryError` to the caller. -/
theorem ip_discovery_fails_soft (st : IPDiscoveryState) (m : ℚ) :
    discover_ip st .absent = (.ok none, st)
    ∧ discover_ip st (.readError m)
        = (.ok none, { st with cached_entries := none, cached_mtime := none })
    ∧ discover_ip st .unexpected = (.ipDiscoveryError, st) :=
  ⟨rfl, rfl, rfl⟩

/-! ## vfkit command assembly (`vm_process.py`, `build_vfkit_command`)

The configuration fields consumed by the builder, the
process-constructor derived API port (`config.port + 1`), and the
command vector.  Paths are working-directory-relative names joined
with `/`.
-/

structure VfkitConfig where
  cores : Nat
  memory : Nat
  debug_enabled : Bool
  rosetta_enabled : Bool
  port : Nat
  shared_dirs : List (String × String)
  deriving DecidableEq, Repr

/-- `VMProcess.__init__`: `self._vfkit_api_port = self.config.port + 1`. -/
def vfkit_api_port (port : Nat) : Nat := port + 1

/-- `VMProcess.build_vfkit_command`. -/
def build_vfkit_command (workingDir : String) (cfg : VfkitConfig)
    (mac : String) : List String :=
  ["vfkit",
   "--cpus", toString cfg.cores,
   "--memory", toString cfg.memory,
   "--bootloader",
   "efi,variable-store=" ++ workingDir ++ "/" ++ EFI_VARIABLE_STORE_FILE_NAME
     ++ ",create",
   "--device", "virtio-blk,path=" ++ workingDir ++ "/" ++ DIFF_DISK_FILE_NAME,
   "--device",
   "virtio-fs,sharedDir=" ++ workingDir ++ "/" ++ SSHD_KEYS_SHARED_DIR_NAME
     ++ ",mountTag=sshd-keys",
   "--device", "virtio-net,nat,mac=" ++ mac,
   "--restful-uri", "tcp://localhost:" ++ toString (vfkit_api_port cfg.port),
   "--device", "virtio-rng",
   "--device", "virtio-balloon"]
  ++ (if cfg.debug_enabled then
        ["--device",
         "virtio-serial,logFilePath=" ++ workingDir ++ "/"
           ++ SERIAL_LOG_FILE_NAME]
      else [])
  ++ (if cfg.rosetta_enabled then ["--device", "rosetta,mountTag=rosetta"]
      else [])

/-- The argument vector as claim C4 (spec §4.5.1) describes it: the
same fixed arguments and debug/rosetta extensions, followed by one
`virtio-fs` device per configured shared directory with its tag. -/
def build_vfkit_command_claimed (workingDir : String) (cfg : VfkitConfig)
    (mac : String) : List String :=
  ["vfkit",
   "--cpus", toString cfg.cores,
   "--memory", toString cfg.memory,
   "--bootloader",
   "efi,variable-store=" ++ workingDir ++ "/" ++ EFI_VARIABLE_STORE_FILE_NAME
     ++ ",create",
   "--device", "virtio-blk,path=" ++ workingDir ++ "/" ++ DIFF_DISK_FILE_NAME,
   "--device",
   "virtio-fs,sharedDir=" ++ workingDir ++ "/" ++ SSHD_KEYS_SHARED_DIR_NAME
     ++ ",mountTag=sshd-keys",
   "--device", "virtio-net,nat,mac=" ++ mac,
   "--restful-uri", "tcp://localhost:" ++ toString (vfkit_api_port cfg.port),
   "--device", "virtio-rng",
   "--device", "virtio-balloon"]
  ++ (if cfg.debug_enabled then
        ["--device",
         "virtio-serial,logFilePath=" ++ workingDir ++ "/"
           ++ SERIAL_LOG_FILE_NAME]
      else [])
  ++ (if cfg.rosetta_enabled then ["--device", "rosetta,mountTag=rosetta"]
      else [])
  ++ (cfg.shared_dirs.map (fun p =>
        ["--device",
         "virtio-fs,sharedDir=" ++ p.2 ++ ",mountTag=" ++ p.1])).flatten

/-- Counterexample to C4: with one configured shared directory
(`media → /data`), the command the code builds contains no virtio-fs
device for it, and differs from the claimed vector. -/
theorem vfkit_command_shared_dirs_counterexample :
    build_vfkit_command "/var/lib/virby"
        ⟨2, 2048, false, false, 31222, [("media", "/data")]⟩ "2:94:aa:bb:cc:dd"
      ≠ build_vfkit_command_claimed "/var/lib/virby"
        ⟨2, 2048, false, false, 31222, [("media", "/data")]⟩ "2:94:aa:bb:cc:dd"
    ∧ "virtio-fs,sharedDir=/data,mountTag=media"
      ∉ build_vfkit_command "/var/lib/virby"
        ⟨2, 2048, false, false, 31222, [("media", "/data")]⟩
        "2:94:aa:bb:cc:dd" := by
  constructor
  · intro h
    have := congrArg List.length h
    simp [build_vfkit_command, build_vfkit_command_claimed] at this
  · decide

/-- C4 amended: the assembled vector consists exactly of the fixed
arguments, extended by the serial-log device when debug is enabled and
the rosetta device when rosetta is enabled; configured shared
directories are NOT added (the builder ignores `shared_dirs`), so the
result equals the claimed vector for the same configuration with its
shared directories removed. -/
theorem vfkit_command_amended (workingDir : String) (cfg : VfkitConfig)
    (mac : String) :
    build_vfkit_command workingDir cfg mac
      = build_vfkit_command_claimed workingDir
          { cfg with shared_dirs := [] } mac := by
  rcases cfg with ⟨c, m, d, r, p, s⟩
  cases d <;> cases r <;>
    simp [build_vfkit_command, build_vfkit_command_claimed]

/-! ## Configuration validation (`config.py`, `_validate_and_store_config`)

JSON values are modelled by `JValue`.  Python's `isinstance(x, int)`
is true for `bool` values as well (`bool` subclasses `int`), which
`isInstInt`/`asInt` reproduce; `isinstance(x, bool)` is strict.  The
host filesystem enters through the `ex` (path-exists) and `res`
(path-resolve) oracles.  Each `raise VMConfigurationError` of the
source is one `need` step, in source order; the `TypeError` Python
would raise when constructing a `Path` from a non-string shared-dir
value is kept distinct. -/

inductive JValue
  | jnull
  | jbool (b : Bool)
  | jint (n : Int)
  | jstr (s : String)
  | jobj (fields : List (String × JValue))
  deriving Repr

/-- `isinstance(x, int)` — true for Python bools too. -/
def JValue.isInstInt : JValue → Bool
  | .jint _ => true
  | .jbool _ => true
  | _ => false

/-- The integer value Python arithmetic sees (`True == 1`). -/
def JValue.asInt : JValue → Int
  | .jint n => n
  | .jbool b => if b then 1 else 0
  | _ => 0

/-- `isinstance(x, bool)`. -/
def JValue.isInstBool : JValue → Bool
  | .jbool _ => true
  | _ => false

def JValue.isObj : JValue → Bool
  | .jobj _ => true
  | _ => false

def JValue.objFields : JValue → List (String × JValue)
  | .jobj fs => fs
  | _ => []

inductive LoadError
  | configError (msg : String)
  | typeError
  deriving DecidableEq, Repr

def getKey (cfg : List (String × JValue)) (key : String) : Option JValue :=
  cfg.lookup key

/-- `self._config.get(key, default)`. -/
def cfgGet (cfg : List (String × JValue)) (key : String) (d : JValue) : JValue :=
  (getKey cfg key).getD d

/-- One validation step: `raise VMConfigurationError(...)` unless the
condition holds. -/
def need (c : Prop) [Decidable c] (e : LoadError) : Except LoadError Unit :=
  if c then .ok () else .error e

/-- The shared-dirs loop: every value must be a string (`Path(path)`
raises `TypeError` otherwise) naming an existing host path, which is
resolved. -/
def checkSharedDirs (ex : String → Bool) (res : String → String) :
    List (String × JValue) → Except LoadError (List (String × String))
  | [] => .ok []
  | (tag, .jstr p) :: rest =>
    if ex p then
      (checkSharedDirs ex res rest).map (fun l => (tag, res p) :: l)
    else
      .error (.configError ("Shared directory does not exist on host: " ++ p))
  | (_, _) :: _ => .error .typeError

/-- Everything `_validate_and_store_config` stores on success. -/
structure ValidatedConfig where
  cores : Int
  memory : Int
  debug_enabled : Bool
  port : Int
  rosetta_enabled : Bool
  on_demand_enabled : Bool
  on_demand_ttl : Int
  shared_dirs : List (String × String)
  ip_discovery_timeout : JValue
  ssh_ready_timeout : JValue
  vm_pause_timeout : Int
  vm_resume_timeout : Int
  vm_stop_timeout : Int
  deriving Repr

/-- `VMConfig._validate_and_store_config`.  The two fields
`ip_discovery_timeout` and `ssh_ready_timeout` are stored as read from
the configuration, without any check. -/
def validate_and_store_config (ex : String → Bool) (res : String → String)
    (cfg : List (String × JValue)) : Except LoadError ValidatedConfig :=
  need ((getKey cfg "cores").isSome = true)
      (.configError "Required configuration field missing: cores") >>= fun _ =>
  need ((getKey cfg "memory").isSome = true)
      (.configError "Required configuration field missing: memory") >>= fun _ =>
  need ((cfgGet cfg "cores" .jnull).isInstInt = true
      ∧ 1 ≤ (cfgGet cfg "cores" .jnull).asInt)
      (.configError "Invalid cores setting") >>= fun _ =>
  need ((cfgGet cfg "memory" .jnull).isInstInt = true
      ∧ 1024 ≤ (cfgGet cfg "memory" .jnull).asInt)
      (.configError "Invalid memory setting") >>= fun _ =>
  need ((cfgGet cfg "debug" (.jbool false)).isInstBool = true)
      (.configError "Invalid debug setting") >>= fun _ =>
  need ((cfgGet cfg "port" .jnull).isInstInt = true
      ∧ 1024 ≤ (cfgGet cfg "port" .jnull).asInt
      ∧ (cfgGet cfg "port" .jnull).asInt ≤ 65535)
      (.configError "Invalid port") >>= fun _ =>
  need ((cfgGet cfg "rosetta" (.jbool false)).isInstBool = true)
      (.configError "Invalid rosetta setting") >>= fun _ =>
  need ((cfgGet cfg "on-demand" (.jbool false)).isInstBool = true)
      (.configError "Invalid on-demand setting") >>= fun _ =>
  need ((cfgGet cfg "ttl" (.jint 10800)).isInstInt = true
      ∧ 0 ≤ (cfgGet cfg "ttl" (.jint 10800)).asInt)
      (.configError "Invalid ttl") >>= fun _ =>
  need ((cfgGet cfg "shared-dirs" (.jobj [])).isObj = true)
      (.configError "Invalid shared-dirs") >>= fun _ =>
  checkSharedDirs ex res (cfgGet cfg "shared-dirs" (.jobj [])).objFields
      >>= fun sdirs =>
  need ((cfgGet cfg "vm_pause_timeout" (.jint 30)).isInstInt = true
      ∧ 1 ≤ (cfgGet cfg "vm_pause_timeout" (.jint 30)).asInt)
      (.configError "Invalid vm_pause_timeout") >>= fun _ =>
  need ((cfgGet cfg "vm_resume_timeout" (.jint 30)).isInstInt = true
      ∧ 1 ≤ (cfgGet cfg "vm_resume_timeout" (.jint 30)).asInt)
      (.configError "Invalid vm_resume_timeout") >>= fun _ =>
  need ((cfgGet cfg "vm_stop_timeout" (.jint 30)).isInstInt = true
      ∧ 1 ≤ (cfgGet cfg "vm_stop_timeout" (.jint 30)).asInt)
      (.configError "Invalid vm_stop_timeout") >>= fun _ =>
  .ok
    { cores := (cfgGet cfg "cores" .jnull).asInt
      memory := (cfgGet cfg "memory" .jnull).asInt
      debug_enabled := (cfgGet cfg "debug" (.jbool false)) matches .jbool true
      port := (cfgGet cfg "port" .jnull).asInt
      rosetta_enabled := (cfgGet cfg "rosetta" (.jbool false)) matches .jbool true
      on_demand_enabled :=
        (cfgGet cfg "on-demand" (.jbool false)) matches .jbool true
      on_demand_ttl := (cfgGet cfg "ttl" (.jint 10800)).asInt
      shared_dirs := sdirs
      ip_discovery_timeout := cfgGet cfg "ip_discovery_timeout" (.jint 60)
      ssh_ready_timeout := cfgGet cfg "ssh_ready_timeout" (.jint 30)
      vm_pause_timeout := (cfgGet cfg "vm_pause_timeout" (.jint 30)).asInt
      vm_resume_timeout := (cfgGet cfg "vm_resume_timeout" (.jint 30)).asInt
      vm_stop_timeout := (cfgGet cfg "vm_stop_timeout" (.jint 30)).asInt }

theorem except_bind_ok {ε α β : Type} {a : Except ε α} {f : α → Except ε β}
    {b : β} (h : a >>= f = .ok b) : ∃ x, a = .ok x ∧ f x = .ok b := by
  cases a with
  | ok x => exact ⟨x, rfl, h⟩
  | error e =>
    exact absurd h (by simp [Bind.bind, Except.bind])

theorem need_ok {c : Prop} [Decidable c] {e : LoadError} {u : Unit}
    (h : need c e = .ok u) : c := by
  unfold need at h
  split at h
  · assumption
  · exact absurd h (by simp)

/-- Counterexample to C5: a configuration with
`ip_discovery_timeout = 0` — present but not an integer ≥ 1 — loads
successfully; no Configuration error is raised. -/
theorem timeout_validation_counterexample :
    getKey [("cores", .jint 2), ("memory", .jint 2048), ("port", .jint 31222),
        ("ip_discovery_timeout", .jint 0)] "ip_discovery_timeout"
      = some (.jint 0)
    ∧ ¬ (1 ≤ (JValue.jint 0).asInt)
    ∧ (validate_and_store_config (fun _ => true) id
        [("cores", .jint 2), ("memory", .jint 2048), ("port", .jint 31222),
         ("ip_discovery_timeout", .jint 0)]).isOk = true := by
  refine ⟨rfl, by decide, rfl⟩

/-- C5 amended: only the three fields `vm_pause_timeout`,
`vm_resume_timeout` and `vm_stop_timeout` are validated — whenever
loading succeeds, each of them, if present, is an integer ≥ 1 — while
`ip_discovery_timeout` and `ssh_ready_timeout` are stored without any
check (see the counterexample). -/
theorem timeout_validation_amended (ex : String → Bool) (res : String → String)
    (cfg : List (String × JValue))
    (h : (validate_and_store_config ex res cfg).isOk = true) :
    (∀ v, getKey cfg "vm_pause_timeout" = some v →
        v.isInstInt = true ∧ 1 ≤ v.asInt)
    ∧ (∀ v, getKey cfg "vm_resume_timeout" = some v →
        v.isInstInt = true ∧ 1 ≤ v.asInt)
    ∧ (∀ v, getKey cfg "vm_stop_timeout" = some v →
        v.isInstInt = true ∧ 1 ≤ v.asInt) := by
  rcases hval : validate_and_store_config ex res cfg with e | out
  · rw [hval] at h
    simp [Except.isOk, Except.toBool] at h
  · unfold validate_and_store_config at hval
    obtain ⟨_, -, hval⟩ := except_bind_ok hval
    obtain ⟨_, -, hval⟩ := except_bind_ok hval
    obtain ⟨_, -, hval⟩ := except_bind_ok hval
    obtain ⟨_, -, hval⟩ := except_bind_ok hval
    obtain ⟨_, -, hval⟩ := except_bind_ok hval
    obtain ⟨_, -, hval⟩ := except_bind_ok hval
    obtain ⟨_, -, hval⟩ := except_bind_ok hval
    obtain ⟨_, -, hval⟩ := except_bind_ok hval
    obtain ⟨_, -, hval⟩ := except_bind_ok hval
    obtain ⟨_, -, hval⟩ := except_bind_ok hval
    obtain ⟨_, -, hval⟩ := except_bind_ok hval
    obtain ⟨_, hcp, hval⟩ := except_bind_ok hval
    obtain ⟨_, hcr, hval⟩ := except_bind_ok hval
    obtain ⟨_, hcs, hval⟩ := except_bind_ok hval
    refine ⟨?_, ?_, ?_⟩ <;> intro v hv
    · have hc := need_ok hcp
      simp only [cfgGet, hv, Option.getD_some] at hc
      exact hc
    · have hc := need_ok hcr
      simp only [cfgGet, hv, Option.getD_some] at hc
      exact hc
    · have hc := need_ok hcs
      simp only [cfgGet, hv, Option.getD_some] at hc
      exact hc

/-- Witness for C5 amended: a configuration with
`vm_pause_timeout = 5` loads, and the theorem recovers that 5 is a
valid timeout value. -/
theorem timeout_validation_amended_witness :
    (JValue.jint 5).isInstInt = true ∧ 1 ≤ (JValue.jint 5).asInt :=
  (timeout_validation_amended (fun _ => true) id
      [("cores", .jint 2), ("memory", .jint 2048), ("port", .jint 31222),
       ("vm_pause_timeout", .jint 5)] rfl).1 (.jint 5) rfl

/-! ## Activation socket (`socket_activation.py`, `get_activation_socket`)

The runtime environment is a function from file-descriptor numbers to
what the probes observe: the descriptor is unusable (`noFd` — `fstat`
or `socket.fromfd` raises), not a socket, a socket whose
`getsockname` fails, or a socket bound to a port.  `launchFds` is what
`_call_launch_activate_socket("Listener")` returned (empty on any
failure).  The function returns the selected descriptor number or the
`VMStartupError` message. -/

inductive FDStat
  | noFd
  | notSock
  | sockNoName
  | sock (port : Nat)
  deriving DecidableEq, Repr

structure FDEnv where
  launchFds : List Nat
  stat : Nat → FDStat

/-- The loop over the descriptors returned by
`launch_activate_socket`: the FIRST descriptor that yields a usable
socket with a readable address is returned — whether or not its port
matches (`"doesn't match expected …, using anyway"`). -/
def primaryScan (env : FDEnv) : List Nat → Option Nat
  | [] => none
  | fd :: rest =>
    match env.stat fd with
    | .sock _ => some fd
    | _ => primaryScan env rest

/-- The code after the fallback scan loop: a single accumulated
socket is used anyway; otherwise a `VMStartupError` naming the
expected port is raised. -/
def finishScan (port : Nat) : List (Nat × Nat) → Except String Nat
  | [(fd, _)] => .ok fd
  | found =>
    .error ("Failed to find activation socket on expected port "
      ++ toString port ++ ". Found " ++ toString found.length ++ " sockets.")

/-- The manual fallback scan over descriptors 0-255: a socket bound to
the expected port is returned at once; other sockets are accumulated
in `found_sockets`. -/
def fallbackLoop (env : FDEnv) (port : Nat) :
    List Nat → List (Nat × Nat) → Except String Nat
  | [], found => finishScan port found
  | fd :: rest, found =>
    match env.stat fd with
    | .sock p =>
      if p = port then .ok fd
      else fallbackLoop env port rest (found ++ [(fd, p)])
    | _ => fallbackLoop env port rest found

/-- `SocketActivation.get_activation_socket`. -/
def get_activation_socket (env : FDEnv) (port : Nat) : Except String Nat :=
  match primaryScan env env.launchFds with
  | some fd => .ok fd
  | none => fallbackLoop env port (List.range 256) []

/-- The sockets (with their bound ports) the fallback scan can see. -/
def collectSocks (env : FDEnv) (l : List Nat) : List (Nat × Nat) :=
  l.filterMap fun fd =>
    match env.stat fd with
    | .sock p => some (fd, p)
    | _ => none

def socketsIn (env : FDEnv) : List (Nat × Nat) :=
  collectSocks env (List.range 256)

/-- An environment with a single socket, on descriptor 100 (outside
the spec's claimed 3..10 scan range), bound to port 9999. -/
def envLoneMismatch : FDEnv :=
  ⟨[], fun fd => if fd = 100 then .sock 9999 else .noFd⟩

/-- An environment where `launch_activate_socket` hands over one
descriptor, bound to the wrong port. -/
def envPrimaryMismatch : FDEnv :=
  ⟨[4], fun fd => if fd = 4 then .sock 9999 else .noFd⟩

/-- Counterexample to C2: expected port 31222; no descriptor in 3..10
is a socket, and the only socket anywhere (descriptor 100, outside the
claimed scan range) is bound to 9999 ≠ 31222.  The claim demands a
Startup error; the code returns descriptor 100. -/
theorem activation_socket_claim_counterexample :
    ((List.range 11).filter fun fd =>
        match envLoneMismatch.stat fd with
        | .sock _ => true
        | _ => false) = []
    ∧ envLoneMismatch.stat 100 = .sock 9999
    ∧ get_activation_socket envLoneMismatch 31222 = .ok 100 := by
  refine ⟨rfl, rfl, rfl⟩

theorem finishScan_len_ne_one (port : Nat) (found : List (Nat × Nat))
    (h : found.length ≠ 1) :
    finishScan port found
      = .error ("Failed to find activation socket on expected port "
          ++ toString port ++ ". Found " ++ toString found.length
          ++ " sockets.") := by
  match found with
  | [] => rfl
  | [(fd, p)] => simp at h
  | a :: b :: t => rfl

/-- A scan segment containing no socket bound to the expected port
only accumulates its sockets. -/
theorem fallbackLoop_no_match (env : FDEnv) (port : Nat) (l : List Nat)
    (acc : List (Nat × Nat))
    (h : ∀ fd ∈ l, ∀ p, env.stat fd = .sock p → p ≠ port) :
    fallbackLoop env port l acc = finishScan port (acc ++ collectSocks env l) := by
  induction l generalizing acc with
  | nil => simp [fallbackLoop, collectSocks]
  | cons fd rest ih =>
    have hrest : ∀ fd' ∈ rest, ∀ p, env.stat fd' = .sock p → p ≠ port :=
      fun fd' hm p hp => h fd' (by simp [hm]) p hp
    cases hstat : env.stat fd with
    | sock p =>
      have hne : p ≠ port := h fd (by simp) p hstat
      simp only [fallbackLoop, hstat, if_neg hne]
      rw [ih _ hrest]
      simp [collectSocks, hstat]
    | noFd =>
      simp only [fallbackLoop, hstat]
      rw [ih _ hrest]
      simp [collectSocks, hstat]
    | notSock =>
      simp only [fallbackLoop, hstat]
      rw [ih _ hrest]
      simp [collectSocks, hstat]
    | sockNoName =>
      simp only [fallbackLoop, hstat]
      rw [ih _ hrest]
      simp [collectSocks, hstat]

/-- The fallback scan returns the first descriptor bound to the
expected port. -/
theorem fallbackLoop_first_match (env : FDEnv) (port : Nat) (l1 : List Nat)
    (fd : Nat) (l2 : List Nat) (acc : List (Nat × Nat))
    (h1 : ∀ j ∈ l1, ∀ q, env.stat j = .sock q → q ≠ port)
    (hfd : env.stat fd = .sock port) :
    fallbackLoop env port (l1 ++ fd :: l2) acc = .ok fd := by
  induction l1 generalizing acc with
  | nil => simp [fallbackLoop, hfd]
  | cons j rest ih =>
    have hrest : ∀ j' ∈ rest, ∀ q, env.stat j' = .sock q → q ≠ port :=
      fun j' hm q hq => h1 j' (by simp [hm]) q hq
    cases hstat : env.stat j with
    | sock q =>
      have hne : q ≠ port := h1 j (by simp) q hstat
      simp only [List.cons_append, fallbackLoop, hstat, if_neg hne]
      exact ih _ hrest
    | noFd =>
      simp only [List.cons_append, fallbackLoop, hstat]
      exact ih _ hrest
    | notSock =>
      simp only [List.cons_append, fallbackLoop, hstat]
      exact ih _ hrest
    | sockNoName =>
      simp only [List.cons_append, fallbackLoop, hstat]
      exact ih _ hrest

theorem range_split (n k : Nat) (h : k < n) :
    List.range n = List.range k ++ k :: List.range' (k + 1) (n - k - 1) := by
  have happ := List.range'_append 0 k (n - k - 1 + 1) 1
  simp only [Nat.zero_add, Nat.one_mul] at happ
  rw [List.range'_succ] at happ
  rw [show n - k - 1 + 1 + k = n from by omega] at happ
  rw [List.range_eq_range', List.range_eq_range']
  exact happ.symm

/-- C2 amended: the primary path returns the first
`launch_activate_socket` descriptor that yields a usable socket,
whatever port it is bound to; the fallback path scans descriptors
0-255 and returns the first socket bound to `config.port`; when no
socket matches, a lone found socket is used anyway, and otherwise a
Startup error naming the expected port is raised. -/
theorem activation_socket_amended (env : FDEnv) (port : Nat) :
    (∀ fd rest p, env.launchFds = fd :: rest → env.stat fd = .sock p →
        get_activation_socket env port = .ok fd)
    ∧ (primaryScan env env.launchFds = none →
        (∀ fd, fd < 256 → ∀ p, env.stat fd = .sock p → p ≠ port) →
        ((socketsIn env).length ≠ 1 →
            get_activation_socket env port
              = .error ("Failed to find activation socket on expected port "
                  ++ toString port ++ ". Found "
                  ++ toString (socketsIn env).length ++ " sockets."))
          ∧ (∀ fd pp, socketsIn env = [(fd, pp)] →
              get_activation_socket env port = .ok fd))
    ∧ (primaryScan env env.launchFds = none →
        ∀ fd, fd < 256 → env.stat fd = .sock port →
        (∀ j, j < fd → ∀ q, env.stat j = .sock q → q ≠ port) →
          get_activation_socket env port = .ok fd) := by
  refine ⟨?_, ?_, ?_⟩
  · intro fd rest p hl hs
    unfold get_activation_socket
    rw [hl]
    simp [primaryScan, hs]
  · intro hprim hno
    have hfall : get_activation_socket env port
        = finishScan port (socketsIn env) := by
      unfold get_activation_socket
      rw [hprim]
      rw [fallbackLoop_no_match env port _ []
        (fun fd hm p hp => hno fd (List.mem_range.mp hm) p hp)]
      rfl
    constructor
    · intro hlen
      rw [hfall, finishScan_len_ne_one port _ hlen]
    · intro fd pp hone
      rw [hfall, hone]
      rfl
  · intro hprim fd hlt hfd hmin
    unfold get_activation_socket
    rw [hprim, range_split 256 fd hlt]
    exact fallbackLoop_first_match env port _ fd _ []
      (fun j hm q hq => hmin j (List.mem_range.mp hm) q hq) hfd

/-- Witness for C2 amended: `launch_activate_socket` returns a single
descriptor bound to port 9999 while 31222 is expected; the code
nevertheless uses it. -/
theorem activation_socket_amended_witness :
    get_activation_socket envPrimaryMismatch 31222 = .ok 4 :=
  (activation_socket_amended envPrimaryMismatch 31222).1 4 [] 9999 rfl rfl

/-! ## REST client and breaker routing (`api.py`, `vm_process.py`)

The HTTP transport is an oracle list consumed one entry per issued
request; `issued` logs every request handed to the transport.
`callApi` is `VfkitAPIClient._call_api`: the `is-running` gate, then
the request, with every `httpx` error surfaced as a `VMRuntimeError`.
(The `retry_on_failure` decorator never retries: the `except
httpx.HTTPError` inside `_call_api` converts connect/timeout errors —
both subclasses of `HTTPError` — before the decorator can see them.)
`breakerCall` is `CircuitBreaker.call` over a world-transforming
function, as used by `VMProcess._get_state_info_with_breaker`;
`VMProcess.pause`/`resume` call the API client directly and take no
breaker at all (`with_timeout` only bounds real time and is not
modelled). -/

structure StateBody where
  state : String
  canPause : Bool
  canResume : Bool
  deriving DecidableEq, Repr

inductive TransportResult
  | ok (body : StateBody)
  | okNoContent
  | httpErr
  deriving DecidableEq, Repr

/-- `VMRuntimeError`. -/
inductive VErr
  | runtime
  deriving DecidableEq, Repr

structure ApiWorld where
  running : Bool
  transport : List TransportResult
  issued : List (String × String)
  deriving DecidableEq, Repr

/-- `VfkitAPIClient._call_api` (an exhausted oracle behaves like a
transport error). -/
def callApi (w : ApiWorld) (method endpoint : String) :
    Except VErr (Option StateBody) × ApiWorld :=
  if !w.running then (.error .runtime, w)
  else
    match w.transport with
    | [] => (.error .runtime, { w with issued := w.issued ++ [(method, endpoint)] })
    | r :: rest =>
      let w' : ApiWorld :=
        { w with transport := rest, issued := w.issued ++ [(method, endpoint)] }
      match r with
      | .ok b => (.ok (some b), w')
      | .okNoContent => (.ok none, w')
      | .httpErr => (.error .runtime, w')

/-- The retry loop of `VMProcess._get_state_info` (3 attempts, `None`
after the last failure). -/
def getStateInfoLoop (w : ApiWorld) : Nat → Option StateBody × ApiWorld
  | 0 => (none, w)
  | n + 1 =>
    match callApi w "GET" "/vm/state" with
    | (.ok b, w') => (b, w')
    | (.error _, w') => getStateInfoLoop w' n

def get_state_info (w : ApiWorld) : Option StateBody × ApiWorld :=
  getStateInfoLoop w 3

/-- `VMProcess.can_pause`. -/
def can_pause (w : ApiWorld) : Bool × ApiWorld :=
  if !w.running then (false, w)
  else
    match get_state_info w with
    | (some b, w') => (b.canPause, w')
    | (none, w') => (false, w')

/-- `VMProcess.can_resume`. -/
def can_resume (w : ApiWorld) : Bool × ApiWorld :=
  if !w.running then (false, w)
  else
    match get_state_info w with
    | (some b, w') => (b.canResume, w')
    | (none, w') => (false, w')

/-- `VMProcess.pause`: running-gate, `can_pause` via the plain
`_get_state_info`, then a direct `api_client.post` — the circuit
breaker is not consulted anywhere. -/
def pause (w : ApiWorld) : Except VErr Unit × ApiWorld :=
  if !w.running then (.error .runtime, w)
  else
    match can_pause w with
    | (false, w1) => (.error .runtime, w1)
    | (true, w1) =>
      match callApi w1 "POST" "/vm/state" with
      | (.ok _, w2) => (.ok (), w2)
      | (.error _, w2) => (.error .runtime, w2)

/-- `VMProcess.resume`, symmetric to `pause`. -/
def resume (w : ApiWorld) : Except VErr Unit × ApiWorld :=
  if !w.running then (.error .runtime, w)
  else
    match can_resume w with
    | (false, w1) => (.error .runtime, w1)
    | (true, w1) =>
      match callApi w1 "POST" "/vm/state" with
      | (.ok _, w2) => (.ok (), w2)
      | (.error _, w2) => (.error .runtime, w2)

/-- `CircuitBreaker.call` wrapped around a world-transforming
function, as `_get_state_info_with_breaker` uses it. -/
def breakerCall {α : Type} (cb : CircuitBreaker) (now : ℚ)
    (f : ApiWorld → Except VErr α × ApiWorld) (w : ApiWorld) :
    Except VErr α × CircuitBreaker × ApiWorld :=
  match cb.state, cb.last_failure_time with
  | .open_, some t =>
    if cb.timeout < now - t then
      let cb1 : CircuitBreaker := { cb with state := .half_open }
      match f w with
      | (.ok a, w') => (.ok a, cb1.on_success, w')
      | (.error e, w') => (.error e, cb1.on_failure now, w')
    else (.error .runtime, cb, w)
  | .open_, none => (.error .runtime, cb, w)
  | _, _ =>
    match f w with
    | (.ok a, w') => (.ok a, cb.on_success, w')
    | (.error e, w') => (.error e, cb.on_failure now, w')

/-- `VMProcess._get_state_info_raw`. -/
def get_state_info_raw (w : ApiWorld) : Except VErr (Option StateBody) × ApiWorld :=
  callApi w "GET" "/vm/state"

/-- `VMProcess._get_state_info_with_breaker`: the only call site that
routes a REST request through the circuit breaker; a breaker rejection
is caught and turned into `None`. -/
def get_state_info_with_breaker (cb : CircuitBreaker) (now : ℚ) (w : ApiWorld) :
    Option StateBody × CircuitBreaker × ApiWorld :=
  match breakerCall cb now get_state_info_raw w with
  | (.ok b, cb', w') => (b, cb', w')
  | (.error _, cb', w') => (none, cb', w')

/-- A running VM whose next state query reports `canPause = true` and
whose subsequent request succeeds with no content. -/
def pausableWorld : ApiWorld :=
  ⟨true, [.ok ⟨"VirtualMachineStateRunning", true, true⟩, .okNoContent], []⟩

/-- Counterexample to C3: the breaker built by two failed calls is
open, yet `pause` — which never consults any breaker — issues its two
HTTP requests (state query and POST) and succeeds. -/
theorem rest_calls_breaker_counterexample :
    sampleOpenBreaker.state = .open_
    ∧ (pause pausableWorld).1 = .ok ()
    ∧ (pause pausableWorld).2.issued
        = [("GET", "/vm/state"), ("POST", "/vm/state")] := by
  refine ⟨by decide, rfl, by decide⟩

/-- C3 amended: only the supervisor's state query
(`_get_state_info_with_breaker`) is routed through the circuit
breaker — while the breaker is open and within its timeout that query
issues no HTTP request and yields `None` with breaker and transport
untouched; `pause` (and symmetrically `resume`) bypasses the breaker
and issues its state-query and POST requests regardless of any
breaker state; and a transport failure on a request is reported as a
Runtime error. -/
theorem rest_calls_breaker_amended (cb : CircuitBreaker) (now t : ℚ)
    (w : ApiWorld) :
    (cb.state = .open_ → cb.last_failure_time = some t →
      now - t ≤ cb.timeout →
        get_state_info_with_breaker cb now w = (none, cb, w))
    ∧ (∀ b r rest, w.running = true → w.transport = .ok b :: r :: rest →
        b.canPause = true →
          (pause w).2.issued
            = w.issued ++ [("GET", "/vm/state"), ("POST", "/vm/state")])
    ∧ (∀ b r rest, w.running = true → w.transport = .ok b :: r :: rest →
        b.canResume = true →
          (resume w).2.issued
            = w.issued ++ [("GET", "/vm/state"), ("POST", "/vm/state")])
    ∧ (∀ rest m e, w.running = true → w.transport = .httpErr :: rest →
        callApi w m e
          = (.error .runtime,
             { w with transport := rest, issued := w.issued ++ [(m, e)] })) := by
  refine ⟨?_, ?_, ?_, ?_⟩
  · intro hso hl hle
    have hgt : ¬ cb.timeout < now - t := not_lt.mpr hle
    simp [get_state_info_with_breaker, breakerCall, hso, hl, hgt]
  · intro b r rest hrun htrans hcp
    simp [pause, can_pause, get_state_info, getStateInfoLoop, callApi,
      get_state_info_raw, hrun, htrans, hcp]
    cases r <;> simp
  · intro b r rest hrun htrans hcr
    simp [resume, can_resume, get_state_info, getStateInfoLoop, callApi,
      get_state_info_raw, hrun, htrans, hcr]
    cases r <;> simp
  · intro rest m e hrun htrans
    simp [callApi, hrun, htrans]

/-- Witness for C3 amended: the sample open breaker, queried within
its timeout, suppresses the state query: no request is issued, nothing
changes, the caller sees `None`. -/
theorem rest_calls_breaker_amended_witness :
    get_state_info_with_breaker sampleOpenBreaker 2 pausableWorld
      = (none, sampleOpenBreaker, pausableWorld) :=
  (rest_calls_breaker_amended sampleOpenBreaker 2 1 pausableWorld).1
    (by decide) (by decide)
    (by rw [show sampleOpenBreaker.timeout = 5 from rfl]; norm_num)

end Virby
